import Mathlib

/-
Verification of the spatio-temporal heatwave analysis pipeline.

Shallow embedding of the core computations:
  - con_sep.py: connectors and selectors for the spatio-temporal graph,
    intersection strength between heatwave footprints
  - cppv.py (create_cpv): edge creation, component consolidation, aggregation
    and the retention filter
  - Heatwave_Detection.py: leap-day filter, day-window threshold computation,
    magnitude calculation (calc_mag) and the numpy percentile it relies on
  - seasonal_clusters.py (assign_season): the fixed-season policy
  - clustering_step2.py: UPGMA sub-clustering and the maxclust flat cut

Machine reals of the source are modelled as exact rationals; the division in
calc_mag is modelled with explicit IEEE-style signed infinities so that a zero
denominator is visible rather than absorbed by the rational division.
-/

namespace HeatwaveAnalysis

set_option maxRecDepth 8000

/-- An extreme event record as seen by the graph builder: dense integer day
index itime and integer grid coordinates x, y (cppv.create_cpv nodes table). -/
structure ERec where
  itime : ℕ
  x : ℤ
  y : ℤ
deriving DecidableEq, Repr

instance : Inhabited ERec := ⟨⟨0, 0, 0⟩⟩

/-- Connector grid_2d_dx of con_sep.py: x-distance between source and target. -/
def grid_2d_dx (x_s x_t : ℤ) : ℤ := x_t - x_s

/-- Connector grid_2d_dy of con_sep.py: y-distance between source and target. -/
def grid_2d_dy (y_s y_t : ℤ) : ℤ := y_t - y_s

/-- Selector s_grid_2d_dx of con_sep.py: a candidate pair survives iff the
absolute x-distance is at most 1. -/
def s_grid_2d_dx (dx : ℤ) : Bool := decide (dx.natAbs ≤ 1)

/-- Selector s_grid_2d_dy of con_sep.py: a candidate pair survives iff the
absolute y-distance is at most 1. -/
def s_grid_2d_dy (dy : ℤ) : Bool := decide (dy.natAbs ≤ 1)

/-- All index pairs (i, j) with i < j < n: the candidate enumeration of the
deepgraph edge generators (source index strictly before target index). -/
def allPairs (n : ℕ) : List (ℕ × ℕ) :=
  (List.range n).flatMap (fun j => (List.range j).map (fun i => (i, j)))

/-- Entry i of the time-sorted nodes table. -/
def nd (nodes : List ERec) (i : ℕ) : ERec := nodes.getD i default

/-- Model of create_edges_ft in cppv.create_cpv, with ft_feature ('itime', 1),
connectors grid_2d_dx and grid_2d_dy, selectors s_grid_2d_dx and s_grid_2d_dy:
on the time-sorted nodes table the fast track pairs each node with every later
node whose itime exceeds its own by at most the threshold 1 (a difference of 0
is within the window), and the selectors keep the Moore-neighbour pairs. -/
def create_edges_ft (nodes : List ERec) : List (ℕ × ℕ) :=
  (allPairs nodes.length).filter (fun p =>
    let s := nd nodes p.1
    let t := nd nodes p.2
    decide (s.itime ≤ t.itime) && decide (t.itime - s.itime ≤ 1) &&
      s_grid_2d_dx (grid_2d_dx s.x t.x) && s_grid_2d_dy (grid_2d_dy s.y t.y))

/-- assign_season of seasonal_clusters.py; none models the np.nan returned for
day-of-year values outside the four fixed ranges. -/
def assign_season (doy : ℕ) : Option ℕ :=
  if 1 ≤ doy ∧ doy ≤ 90 then some 1
  else if 91 ≤ doy ∧ doy ≤ 180 then some 2
  else if 181 ≤ doy ∧ doy ≤ 270 then some 3
  else if 271 ≤ doy ∧ doy ≤ 360 then some 4
  else none

/-- A component member record as used by the aggregation in create_cpv: the
calendar time (in whole days, daily resolution) and the grid cell id. -/
structure CRec where
  time : ℕ
  g_id : ℕ
deriving DecidableEq, Repr

instance : Inhabited CRec := ⟨⟨0, 0⟩⟩

/-- Aggregate time_amin of a component (np.min over member times). -/
def time_amin : List CRec → ℕ
  | [] => 0
  | r :: rs => (rs.map (fun s => s.time)).foldl Nat.min r.time

/-- Aggregate time_amax of a component (np.max over member times). -/
def time_amax : List CRec → ℕ
  | [] => 0
  | r :: rs => (rs.map (fun s => s.time)).foldl Nat.max r.time

/-- Column dt of the supernodes table, in whole days:
time_amax - time_amin at daily resolution. -/
def dt_days (c : List CRec) : ℕ := time_amax c - time_amin c

/-- Column timespan of the supernodes table: dt.days + 1. -/
def timespan (c : List CRec) : ℕ := dt_days c + 1

/-- Column n_unique_g_ids: cardinality of the set of member grid cell ids. -/
def n_unique_g_ids (c : List CRec) : ℕ := ((c.map (fun r => r.g_id)).dedup).length

/-- The retention flag of create_cpv:
keep = (dt greater than 1 day) and (n_unique_g_ids greater than b). -/
def keep_component (c : List CRec) (b : ℕ) : Bool :=
  decide (1 < dt_days c) && decide (b < n_unique_g_ids c)

/-- Value of a numpy float64 expression over exact rationals: a finite rational,
a signed infinity, or nan. -/
inductive FloatVal where
  | finite (q : ℚ)
  | posInf
  | negInf
  | nan
deriving DecidableEq, Repr

/-- Division as numpy float64 performs it (no exception is raised): a nonzero
numerator over a zero denominator gives a signed infinity, 0 over 0 gives nan,
otherwise the exact quotient. -/
def fdiv (a b : ℚ) : FloatVal :=
  if b = 0 then
    if a = 0 then FloatVal.nan
    else if 0 < a then FloatVal.posInf
    else FloatVal.negInf
  else FloatVal.finite (a / b)

/-- calc_mag of Heatwave_Detection.py: magnitude of an extreme record with
temperature t2m at a cell whose annual-maxima percentiles are p25 and p75. -/
def calc_mag (t2m p25 p75 : ℚ) : FloatVal :=
  if p25 < t2m then fdiv (t2m - p25) (p75 - p25) else FloatVal.finite 0

/-- Insertion of a value into a sorted rational list. -/
def insertSorted (a : ℚ) : List ℚ → List ℚ
  | [] => [a]
  | b :: t => if a ≤ b then a :: b :: t else b :: insertSorted a t

/-- Insertion sort on rational lists (the sort inside np.percentile). -/
def sortQ : List ℚ → List ℚ
  | [] => []
  | a :: t => insertSorted a (sortQ t)

/-- np.percentile with its default linear interpolation: place the virtual
index q / 100 * (n - 1) in the sorted sample and interpolate between the two
neighbouring order statistics. numpy raises on an empty sample; all uses in
the pipeline are on nonempty pools, and the empty case here returns a junk 0. -/
def np_percentile (l : List ℚ) (q : ℚ) : ℚ :=
  let s := sortQ l
  let n := s.length
  if n = 0 then 0
  else
    let pos : ℚ := q / 100 * ((n : ℚ) - 1)
    let i : ℕ := (Int.floor pos).toNat
    let lo := s.getD (Nat.min i (n - 1)) 0
    let hi := s.getD (Nat.min (i + 1) (n - 1)) 0
    lo + (pos - (i : ℚ)) * (hi - lo)

/-- A raw daily record as used by the threshold stage of Heatwave_Detection.py:
grid coordinates, day of year and temperature (any year, all years pooled). -/
structure TRec where
  x : ℤ
  y : ℤ
  ytime : ℕ
  t2m : ℚ
deriving DecidableEq, Repr

instance : Inhabited TRec := ⟨⟨0, 0, 1, 0⟩⟩

/-- The 396-entry wrapped day-of-year sequence of Heatwave_Detection.py:
time_window = concatenate(arange(350, 366), arange(1, 366), arange(1, 16)). -/
def time_window : List ℕ := List.range' 350 16 ++ List.range' 1 365 ++ List.range' 1 15

/-- The slice time_window[i : i + 31] used in loop iteration i = d - 1: the set
of ytime values pooled for calendar day d. -/
def window_days (d : ℕ) : List ℕ := (time_window.drop (d - 1)).take 31

/-- The temperature sample pooled for cell (x, y) and calendar day d: the t2m
values of all records of that cell, from every year present, whose ytime lies
in the day window (the partition by cell and ytime followed by the window
filter and the re-partition by cell, flattened). -/
def pool (data : List TRec) (x y : ℤ) (d : ℕ) : List ℚ :=
  (data.filter (fun r => r.x == x && r.y == y && (window_days d).contains r.ytime)).map
    (fun r => r.t2m)

/-- The thresh column: 99th percentile of the pooled sample. -/
def thresh (data : List TRec) (x y : ℤ) (d : ℕ) : ℚ := np_percentile (pool data x y d) 99

/-- The per-cell, per-day outcome of the threshold loop: a cell and day whose
pool is empty produces no table row at all (none); otherwise the row holds the
99th percentile of the pool, with no minimum-sample-count check anywhere. -/
def thresh_row (data : List TRec) (x y : ℤ) (d : ℕ) : Option ℚ :=
  if pool data x y d = [] then none else some (np_percentile (pool data x y d) 99)

/-- The window claimed by the spec for calendar day d: 31 days centered on d,
running from d - 15 through d + 15 and wrapping modulo the 365-day cycle.
Written from the words of the spec, for comparison with window_days. -/
def spec_window (d : ℕ) : List ℕ :=
  (List.range 31).map (fun j => (((d : ℤ) - 16 + j).emod 365).toNat + 1)

/-- The sample the spec would pool for cell (x, y) and day d: temperatures with
ytime in the centered window. Written from the words of the spec. -/
def spec_pool (data : List TRec) (x y : ℤ) (d : ℕ) : List ℚ :=
  (data.filter (fun r => r.x == x && r.y == y && (spec_window d).contains r.ytime)).map
    (fun r => r.t2m)

/-- The threshold the spec describes: 99th percentile of the sample pooled over
the centered window. Written from the words of the spec, for comparison. -/
def spec_thresh (data : List TRec) (x y : ℤ) (d : ℕ) : ℚ :=
  np_percentile (spec_pool data x y d) 99

/-- The leap-day filter of Heatwave_Detection.py,
filter_by_values_v('ytime', np.arange(366)): keep the records whose ytime lies
in 0..365, dropping every day-366 record. The filter rebinds the node view of
the DeepGraph it is called on and leaves the underlying table unchanged (the
threshold loop in the same file refilters the one cpv_t object 366 times,
which requires exactly this non-mutation). -/
def drop_leap_day (data : List TRec) : List TRec :=
  data.filter (fun r => (List.range 366).contains r.ytime)

/-- The extraction stage of Heatwave_Detection.py downstream of the threshold
loop: result = merge(vt, tmp2, on=[ytime, x, y]) inner-joins the UNFILTERED
full table vt against the threshold rows (one per cell and calendar day
1..366, computed from the leap-day-filtered view), then the keep mask retains
the records with t2m at or above thresh. A record thus survives extraction iff
a threshold row exists for its cell and its own day-of-year and its
temperature meets that threshold; no ytime bound is imposed here. -/
def extr (data : List TRec) : List TRec :=
  data.filter (fun r =>
    match thresh_row (drop_leap_day data) r.x r.y r.ytime with
    | none => false
    | some t => decide (t ≤ r.t2m))

/-- Sequential class merging over an edge list, starting from the discrete
labeling: processing an edge makes the class of its first endpoint adopt the
label of the class of its second endpoint. This is the union-find labeling
underlying append_cp (connected components of the edge set). -/
def labels : List (ℕ × ℕ) → ℕ → ℕ
  | [], v => v
  | e :: es, v =>
    let f := labels es
    if f v = f e.1 then f e.2 else f v

/-- Does vertex v occur as an endpoint of some edge of the list. -/
def incident (es : List (ℕ × ℕ)) (v : ℕ) : Bool :=
  es.any (fun e => e.1 == v || e.2 == v)

/-- append_cp with consolidate_singles=True in cppv.create_cpv: every record
with no incident edge is put in the shared component 0, while each record
covered by an edge keeps the (shifted) label of its connected component. -/
def append_cp (es : List (ℕ × ℕ)) (v : ℕ) : ℕ :=
  if incident es v then labels es v + 1 else 0

/-- The symmetric relation generated by an edge list. -/
def edge_rel (es : List (ℕ × ℕ)) (u v : ℕ) : Prop := (u, v) ∈ es ∨ (v, u) ∈ es

/-- cp_node_intersection of con_sep.py: cardinality of the intersection of two
grid-cell id sets (sets modelled as lists, deduplicated for cardinality). -/
def cp_node_intersection (s t : List ℕ) : ℕ :=
  ((s.filter (fun a => t.contains a)).dedup).length

/-- cp_intersection_strength of con_sep.py: intersection cardinality divided by
the smaller footprint cardinality. -/
def cp_intersection_strength (ns nt card : ℕ) : ℚ := (card : ℚ) / ((Nat.min ns nt : ℕ) : ℚ)

/-- Distance between two heatwave footprints in clustering_step2.py:
1 - intsec_strength. -/
def hw_dist (gs gt : List ℕ) : ℚ :=
  1 - cp_intersection_strength gs.dedup.length gt.dedup.length (cp_node_intersection gs gt)

/-- Base distance matrix entry for observations i and j of a family, read off
the condensed distance vector dv = 1 - intsec_strength. -/
def base_dist (gIds : List (List ℕ)) (i j : ℕ) : ℚ :=
  hw_dist (gIds.getD i []) (gIds.getD j [])

/-- UPGMA distance between two clusters of observation indices: the arithmetic
mean of the base distances over all cross pairs. -/
def avg_dist (dist : ℕ → ℕ → ℚ) (A B : List ℕ) : ℚ :=
  ((A.flatMap (fun a => B.map (fun b => dist a b))).foldl (fun acc q => acc + q) 0) /
    ((A.length * B.length : ℕ) : ℚ)

/-- Index pair of the two current clusters at minimal UPGMA distance (first
minimal pair in the enumeration, as the linkage tie-break). -/
def min_pair (dist : ℕ → ℕ → ℚ) (cs : List (List ℕ)) : ℕ × ℕ :=
  match allPairs cs.length with
  | [] => (0, 0)
  | p0 :: ps =>
    ps.foldl (fun best p =>
      if avg_dist dist (cs.getD p.1 []) (cs.getD p.2 []) <
          avg_dist dist (cs.getD best.1 []) (cs.getD best.2 []) then p else best) p0

/-- One UPGMA merge step: join the two closest clusters; the emitted merge
records one representative observation of each side. -/
def upgma_merge (dist : ℕ → ℕ → ℚ) (cs : List (List ℕ)) : (ℕ × ℕ) × List (List ℕ) :=
  let p := min_pair dist cs
  let A := cs.getD p.1 []
  let B := cs.getD p.2 []
  let rest := (cs.enum.filter (fun q => !(q.1 == p.1 || q.1 == p.2))).map (fun q => q.2)
  ((A.headD 0, B.headD 0), rest ++ [A ++ B])

/-- The full UPGMA merge sequence (the linkage matrix of clustering_step2.py,
in merge order, which for average linkage is nondecreasing-height order). -/
def upgma_merges (dist : ℕ → ℕ → ℚ) : ℕ → List (List ℕ) → List (ℕ × ℕ)
  | 0, _ => []
  | fuel + 1, cs =>
    if cs.length < 2 then []
    else
      let m := upgma_merge dist cs
      m.1 :: upgma_merges dist fuel m.2

/-- The sub-clustering step of clustering_step2.py on one family, given the
grid-cell id footprints of its M heatwaves and the requested flat cluster
count u: linkage raises on an empty condensed distance matrix (M below 2);
otherwise fcluster(lm, u, criterion='maxclust') cuts the merge sequence so
that at most u flat clusters remain, which applies the first M - u merges and
none at all when u is at least M. The result lists the flat component label of
each of the M heatwaves (label values before the size-based relabeling). -/
def subcluster (gIds : List (List ℕ)) (u : ℕ) : Except String (List ℕ) :=
  let M := gIds.length
  if M < 2 then Except.error "The number of observations cannot be determined on an empty distance matrix."
  else
    let merges := upgma_merges (base_dist gIds) M ((List.range M).map (fun i => [i]))
    Except.ok ((List.range M).map (labels (merges.take (M - u))))

/- Theorems. -/

theorem mem_allPairs {n i j : ℕ} : (i, j) ∈ allPairs n ↔ i < j ∧ j < n := by
  simp only [allPairs, List.mem_flatMap, List.mem_map, List.mem_range, Prod.mk.injEq]
  constructor
  · rintro ⟨a, ha, b, hb, rfl, rfl⟩
    exact ⟨hb, ha⟩
  · rintro ⟨hij, hj⟩
    exact ⟨j, hj, i, hij, rfl, rfl⟩

/-- C1 (counterexample): the claim says two extreme records on the same day are
never linked, but the graph builder does link two records with equal itime at
Moore-adjacent cells: the fast track window of ft_feature ('itime', 1) admits
a time distance of 0, and the selectors only constrain dx and dy. -/
theorem c1_same_day_edge_counterexample :
    (0, 1) ∈ create_edges_ft [⟨0, 0, 0⟩, ⟨0, 1, 0⟩] ∧
    (nd [⟨0, 0, 0⟩, ⟨0, 1, 0⟩] 0).itime = (nd [⟨0, 0, 0⟩, ⟨0, 1, 0⟩] 1).itime := by
  decide

/-- C1 (amended): for a nodes table sorted by time, the builder creates an edge
between positions i and j (i before j) if and only if the two records are at
most one day apart in itime (0 or 1 days), at most 1 apart in x, and at most 1
apart in y. -/
theorem c1_edge_iff (nodes : List ERec)
    (hs : nodes.Sorted (fun a b => a.itime ≤ b.itime))
    (i j : ℕ) (hij : i < j) (hj : j < nodes.length) :
    ((i, j) ∈ create_edges_ft nodes ↔
      (((nd nodes j).itime : ℤ) - ((nd nodes i).itime : ℤ)).natAbs ≤ 1 ∧
      (grid_2d_dx (nd nodes i).x (nd nodes j).x).natAbs ≤ 1 ∧
      (grid_2d_dy (nd nodes i).y (nd nodes j).y).natAbs ≤ 1) := by
  have hi : i < nodes.length := lt_trans hij hj
  have hle : (nd nodes i).itime ≤ (nd nodes j).itime := by
    have h := hs.rel_get_of_lt (a := ⟨i, hi⟩) (b := ⟨j, hj⟩) (Fin.mk_lt_mk.mpr hij)
    rw [nd, nd, List.getD_eq_getElem nodes default hi, List.getD_eq_getElem nodes default hj]
    exact h
  simp only [create_edges_ft, List.mem_filter, mem_allPairs, Bool.and_eq_true,
    decide_eq_true_eq, s_grid_2d_dx, s_grid_2d_dy]
  constructor
  · rintro ⟨-, ⟨⟨-, hdt⟩, hdx⟩, hdy⟩
    exact ⟨by omega, hdx, hdy⟩
  · rintro ⟨hdt, hdx, hdy⟩
    exact ⟨⟨hij, hj⟩, ⟨⟨hle, by omega⟩, hdx⟩, hdy⟩

/-- C1 witness: the amended edge criterion applied to a concrete sorted
two-node table, one day and one cell apart. -/
theorem c1_edge_iff_witness :
    ([⟨0, 0, 0⟩, ⟨1, 1, 1⟩] : List ERec).Sorted (fun a b => a.itime ≤ b.itime) ∧
    0 < 1 ∧ 1 < ([⟨0, 0, 0⟩, ⟨1, 1, 1⟩] : List ERec).length ∧
    ((0, 1) ∈ create_edges_ft [⟨0, 0, 0⟩, ⟨1, 1, 1⟩] ↔
      (((nd [⟨0, 0, 0⟩, ⟨1, 1, 1⟩] 1).itime : ℤ) -
        ((nd [⟨0, 0, 0⟩, ⟨1, 1, 1⟩] 0).itime : ℤ)).natAbs ≤ 1 ∧
      (grid_2d_dx (nd [⟨0, 0, 0⟩, ⟨1, 1, 1⟩] 0).x (nd [⟨0, 0, 0⟩, ⟨1, 1, 1⟩] 1).x).natAbs ≤ 1 ∧
      (grid_2d_dy (nd [⟨0, 0, 0⟩, ⟨1, 1, 1⟩] 0).y (nd [⟨0, 0, 0⟩, ⟨1, 1, 1⟩] 1).y).natAbs ≤ 1) :=
  ⟨by decide, by decide, by decide,
    c1_edge_iff _ (by decide) 0 1 (by decide) (by decide)⟩

/-- C2 (counterexample): a component spanning exactly 2 calendar days with more
grid cells than b = 0 is discarded, although the claim says it is kept: the
code requires dt strictly greater than 1 day, that is a timespan of at least
3 days. -/
theorem c2_two_day_component_counterexample :
    timespan [⟨0, 1⟩, ⟨1, 2⟩] = 2 ∧ 1 < timespan [⟨0, 1⟩, ⟨1, 2⟩] ∧
    0 < n_unique_g_ids [⟨0, 1⟩, ⟨1, 2⟩] ∧
    keep_component [⟨0, 1⟩, ⟨1, 2⟩] 0 = false := by
  decide

/-- C2 (amended): the aggregator retains a component if and only if its
timespan exceeds 2 days (equivalently, time_amax - time_amin exceeds 1 day)
and its number of unique grid-cell ids exceeds b. -/
theorem c2_keep_iff (c : List CRec) (b : ℕ) :
    keep_component c b = true ↔ 2 < timespan c ∧ b < n_unique_g_ids c := by
  simp only [keep_component, timespan, Bool.and_eq_true, decide_eq_true_eq]
  omega

/-- C3 (counterexample): at a cell whose annual maxima are 1, 1, 1, 1, 5 the
two percentiles coincide (p25 = p75 = 1), yet the magnitude of an extreme
record with temperature 5 at that cell is +Inf (float division of the positive
numerator by the zero denominator), not 0. -/
theorem c3_degenerate_counterexample :
    np_percentile [1, 1, 1, 1, 5] 25 = np_percentile [1, 1, 1, 1, 5] 75 ∧
    calc_mag 5 (np_percentile [1, 1, 1, 1, 5] 25) (np_percentile [1, 1, 1, 1, 5] 75) =
      FloatVal.posInf := by
  have h25 : np_percentile [1, 1, 1, 1, 5] 25 = 1 := by
    norm_num [np_percentile, sortQ, insertSorted]
  have h75 : np_percentile [1, 1, 1, 1, 5] 75 = 1 := by
    norm_num [np_percentile, sortQ, insertSorted]
    simp
  rw [h25, h75]
  exact ⟨rfl, by norm_num [calc_mag, fdiv]⟩

/-- C3 (amended): with coinciding percentiles p75 = p25 = p, the magnitude is 0
exactly for temperatures at most p; for temperatures above p the division by
the zero denominator silently yields +Inf — no division error is raised, but
the degenerate case is not mapped to 0 either. -/
theorem c3_degenerate_behaviour (v p : ℚ) :
    calc_mag v p p = if p < v then FloatVal.posInf else FloatVal.finite 0 := by
  by_cases h : p < v
  · have hpos : (0 : ℚ) < v - p := sub_pos.mpr h
    simp [calc_mag, fdiv, h, sub_self, hpos, hpos.ne']
  · simp [calc_mag, h]

/-- C7: with non-degenerate percentiles p25 strictly below p75, the magnitude
is the normalized exceedance (v - p25) / (p75 - p25) for v above p25, is 0 for
v at most p25, and is in every case a finite nonnegative value. -/
theorem c7_magnitude (v p25 p75 : ℚ) (h : p25 < p75) :
    (p25 < v → calc_mag v p25 p75 = FloatVal.finite ((v - p25) / (p75 - p25))) ∧
    (v ≤ p25 → calc_mag v p25 p75 = FloatVal.finite 0) ∧
    ∃ m, calc_mag v p25 p75 = FloatVal.finite m ∧ 0 ≤ m := by
  have hd : (0 : ℚ) < p75 - p25 := sub_pos.mpr h
  refine ⟨?_, ?_, ?_⟩
  · intro hv
    simp [calc_mag, fdiv, hv, hd.ne']
  · intro hv
    simp [calc_mag, not_lt.mpr hv]
  · by_cases hv : p25 < v
    · exact ⟨(v - p25) / (p75 - p25), by simp [calc_mag, fdiv, hv, hd.ne'],
        div_nonneg (sub_pos.mpr hv).le hd.le⟩
    · exact ⟨0, by simp [calc_mag, hv], le_refl 0⟩

/-- C7 witness: the magnitude rule evaluated at v = 3, p25 = 1, p75 = 2. -/
theorem c7_magnitude_witness :
    (1 : ℚ) < 2 ∧
    (((1 : ℚ) < 3 → calc_mag 3 1 2 = FloatVal.finite ((3 - 1) / (2 - 1))) ∧
      ((3 : ℚ) ≤ 1 → calc_mag 3 1 2 = FloatVal.finite 0) ∧
      ∃ m, calc_mag 3 1 2 = FloatVal.finite m ∧ 0 ≤ m) :=
  ⟨by norm_num, c7_magnitude 3 1 2 (by norm_num)⟩

/-- C9 (counterexample): 361 is a valid day-of-year value, yet the fixed-season
policy assigns it no season (np.nan): the four ranges only cover 1..360. -/
theorem c9_day_361_counterexample :
    1 ≤ 361 ∧ 361 ≤ 366 ∧ assign_season 361 = none := by
  decide

/-- C9 (amended): the fixed-season policy is total on day-of-year values 1..360
only, mapping each such day to one of the four season labels; days 361..366
are mapped to the non-season value none. -/
theorem c9_seasons_total_on_1_360 (doy : ℕ) (h1 : 1 ≤ doy) (h2 : doy ≤ 360) :
    ∃ s, assign_season doy = some s ∧ (s = 1 ∨ s = 2 ∨ s = 3 ∨ s = 4) := by
  unfold assign_season
  split_ifs with ha hb hc hd
  · exact ⟨1, rfl, Or.inl rfl⟩
  · exact ⟨2, rfl, Or.inr (Or.inl rfl)⟩
  · exact ⟨3, rfl, Or.inr (Or.inr (Or.inl rfl))⟩
  · exact ⟨4, rfl, Or.inr (Or.inr (Or.inr rfl))⟩
  · exact absurd (by omega : 1 ≤ doy ∧ doy ≤ 90 ∨ 91 ≤ doy ∧ doy ≤ 180 ∨
      181 ≤ doy ∧ doy ≤ 270 ∨ 271 ≤ doy ∧ doy ≤ 360) (by tauto)

/-- C9 witness: day 100 receives a season label. -/
theorem c9_seasons_witness :
    1 ≤ 100 ∧ 100 ≤ 360 ∧
    ∃ s, assign_season 100 = some s ∧ (s = 1 ∨ s = 2 ∨ s = 3 ∨ s = 4) :=
  ⟨by decide, by decide, c9_seasons_total_on_1_360 100 (by decide) (by decide)⟩

/-- C10 (counterexample): a day-366 record reaches extraction. On a two-record
one-cell dataset, the leap-day record (ytime 366, temperature 50) survives the
extreme filter: the filtered view only shapes the threshold pools, the merge
joins the unfiltered table, and a day-366 threshold row exists (its window
pools the day-1 sample, giving threshold 10, and 50 is at or above 10). -/
theorem c10_leap_day_reaches_extraction :
    (⟨0, 0, 366, 50⟩ : TRec) ∈ extr [⟨0, 0, 366, 50⟩, ⟨0, 0, 1, 10⟩] ∧
    (⟨0, 0, 366, 50⟩ : TRec).ytime = 366 := by
  have hf : drop_leap_day [⟨0, 0, 366, 50⟩, ⟨0, 0, 1, 10⟩] = [⟨0, 0, 1, 10⟩] := by decide
  have hp : pool [⟨0, 0, 1, 10⟩] 0 0 366 = [10] := by decide
  have hperc : np_percentile [10] 99 = 10 := by
    norm_num [np_percentile, sortQ, insertSorted]
  have hrow : thresh_row [⟨0, 0, 1, 10⟩] 0 0 366 = some 10 := by
    simp [thresh_row, hp, hperc]
  refine ⟨?_, rfl⟩
  simp only [extr, hf, List.mem_filter]
  refine ⟨by simp, ?_⟩
  rw [hrow]
  norm_num

/-- C10 (amended): the leap-day filter removes day-366 records from the
threshold view only. Every record of the filtered view has ytime in 1..365, so
the threshold pools carry no day-366 sample; but extraction is the join of the
unfiltered table with the threshold rows, so a record — of any day-of-year,
including 366 — survives extraction exactly when a threshold row exists for
its cell and its day and its temperature is at or above that threshold. -/
theorem c10_filter_scope (data : List TRec)
    (h : ∀ r ∈ data, 1 ≤ r.ytime ∧ r.ytime ≤ 366) :
    (∀ r ∈ drop_leap_day data, 1 ≤ r.ytime ∧ r.ytime ≤ 365) ∧
    (∀ r, r ∈ extr data ↔ r ∈ data ∧
      ∃ t, thresh_row (drop_leap_day data) r.x r.y r.ytime = some t ∧ t ≤ r.t2m) := by
  constructor
  · intro r hr
    rw [drop_leap_day, List.mem_filter] at hr
    obtain ⟨hmem, hkeep⟩ := hr
    have h1 := h r hmem
    have h2 : r.ytime ∈ List.range 366 := by
      simpa using hkeep
    rw [List.mem_range] at h2
    omega
  · intro r
    simp only [extr, List.mem_filter]
    refine and_congr_right (fun _ => ?_)
    cases hrow : thresh_row (drop_leap_day data) r.x r.y r.ytime with
    | none => simp [hrow]
    | some t => simp [hrow]

/-- C10 witness: the filter-scope statement on the concrete dataset of the
counterexample. -/
theorem c10_filter_scope_witness :
    (∀ r ∈ ([⟨0, 0, 366, 50⟩, ⟨0, 0, 1, 10⟩] : List TRec), 1 ≤ r.ytime ∧ r.ytime ≤ 366) ∧
    ((∀ r ∈ drop_leap_day [⟨0, 0, 366, 50⟩, ⟨0, 0, 1, 10⟩], 1 ≤ r.ytime ∧ r.ytime ≤ 365) ∧
      (∀ r, r ∈ extr [⟨0, 0, 366, 50⟩, ⟨0, 0, 1, 10⟩] ↔
        r ∈ ([⟨0, 0, 366, 50⟩, ⟨0, 0, 1, 10⟩] : List TRec) ∧
        ∃ t, thresh_row (drop_leap_day [⟨0, 0, 366, 50⟩, ⟨0, 0, 1, 10⟩]) r.x r.y r.ytime =
          some t ∧ t ≤ r.t2m)) :=
  ⟨by decide, c10_filter_scope _ (by decide)⟩

theorem time_window_entries : ∀ i, i < 396 → time_window.getD i 0 = (i + 349) % 365 + 1 := by
  decide

theorem time_window_length : time_window.length = 396 := by
  decide

/-- C4 (counterexample): for calendar day 1 the claimed centered window
contains day 16, the code window does not; on a concrete one-cell dataset with
a hot day-16 sample the two pooling rules give different thresholds (0 versus
99), so the threshold is not the percentile over the centered window. -/
theorem c4_window_counterexample :
    (16 ∈ spec_window 1 ∧ 16 ∉ window_days 1) ∧
    thresh [⟨0, 0, 16, 100⟩, ⟨0, 0, 1, 0⟩] 0 0 1 = 0 ∧
    spec_thresh [⟨0, 0, 16, 100⟩, ⟨0, 0, 1, 0⟩] 0 0 1 = 99 := by
  refine ⟨by decide, ?_, ?_⟩
  · have hp : pool [⟨0, 0, 16, 100⟩, ⟨0, 0, 1, 0⟩] 0 0 1 = [0] := by decide
    show np_percentile (pool [⟨0, 0, 16, 100⟩, ⟨0, 0, 1, 0⟩] 0 0 1) 99 = 0
    rw [hp]
    norm_num [np_percentile, sortQ, insertSorted]
  · have hp : spec_pool [⟨0, 0, 16, 100⟩, ⟨0, 0, 1, 0⟩] 0 0 1 = [100, 0] := by decide
    show np_percentile (spec_pool [⟨0, 0, 16, 100⟩, ⟨0, 0, 1, 0⟩] 0 0 1) 99 = 99
    rw [hp]
    norm_num [np_percentile, sortQ, insertSorted]

/-- C4 (amended): for every cell and every calendar day d in 1..366, the
threshold is the 99th percentile of the temperatures pooled, across all years
present, over the 31-day window of days d - 16 through d + 14 wrapped modulo
the 365-day cycle: entry j of the window is (d + 348 + j) mod 365, plus 1. -/
theorem c4_window_formula (data : List TRec) (x y : ℤ) (d j : ℕ)
    (h1 : 1 ≤ d) (h2 : d ≤ 366) (hj : j < 31) :
    thresh data x y d = np_percentile (pool data x y d) 99 ∧
    (window_days d).length = 31 ∧
    (window_days d).getD j 0 = (d + 348 + j) % 365 + 1 := by
  refine ⟨rfl, ?_, ?_⟩
  · rw [window_days, List.length_take, List.length_drop, time_window_length]
    omega
  · have hd : (window_days d).getD j 0 = time_window.getD (d - 1 + j) 0 := by
      rw [window_days, List.getD_eq_getElem?_getD, List.getElem?_take_of_lt hj,
        List.getElem?_drop, ← List.getD_eq_getElem?_getD]
    rw [hd, time_window_entries _ (by omega)]
    have harg : d - 1 + j + 349 = d + 348 + j := by omega
    rw [harg]

/-- C4 witness: the amended window formula evaluated at day 1, entry 0, on the
empty dataset. -/
theorem c4_window_formula_witness :
    1 ≤ 1 ∧ 1 ≤ 366 ∧ 0 < 31 ∧
    (thresh [] 0 0 1 = np_percentile (pool [] 0 0 1) 99 ∧
      (window_days 1).length = 31 ∧
      (window_days 1).getD 0 0 = (1 + 348 + 0) % 365 + 1) :=
  ⟨by decide, by decide, by decide,
    c4_window_formula [] 0 0 1 0 (by decide) (by decide) (by decide)⟩

/-- C6 (counterexample): a cell and day whose pool holds a single sample (far
below the documented minimum of 30) still gets a threshold row, namely the
percentile of that one-sample pool; no error is raised. -/
theorem c6_undersized_pool_counterexample :
    (pool [⟨0, 0, 5, 20⟩] 0 0 5).length = 1 ∧
    (pool [⟨0, 0, 5, 20⟩] 0 0 5).length < 30 ∧
    thresh_row [⟨0, 0, 5, 20⟩] 0 0 5 = some 20 := by
  have hp : pool [⟨0, 0, 5, 20⟩] 0 0 5 = [20] := by decide
  refine ⟨by rw [hp]; rfl, by rw [hp]; norm_num, ?_⟩
  rw [thresh_row, hp]
  norm_num [np_percentile, sortQ, insertSorted]

/-- C6 (amended): the threshold computation has no minimum-sample-count check:
every cell and day with a nonempty pool, of whatever size, receives the 99th
percentile of that pool; a cell and day with no samples simply produces no
table row. -/
theorem c6_no_minimum_check (data : List TRec) (x y : ℤ) (d : ℕ)
    (h : pool data x y d ≠ []) :
    thresh_row data x y d = some (np_percentile (pool data x y d) 99) := by
  rw [thresh_row, if_neg h]

/-- C6 witness: the no-check behaviour on the one-sample pool. -/
theorem c6_no_minimum_check_witness :
    pool [⟨0, 0, 5, 20⟩] 0 0 5 ≠ [] ∧
    thresh_row [⟨0, 0, 5, 20⟩] 0 0 5 =
      some (np_percentile (pool [⟨0, 0, 5, 20⟩] 0 0 5) 99) :=
  ⟨by decide, c6_no_minimum_check _ _ _ _ (by decide)⟩

theorem eqvGen_empty {r : ℕ → ℕ → Prop} (hr : ∀ u v, ¬ r u v) {x y : ℕ}
    (h : Relation.EqvGen r x y) : x = y := by
  induction h with
  | rel u v huv => exact absurd huv (hr u v)
  | refl u => rfl
  | symm u v _ ih => exact ih.symm
  | trans u v w _ _ ih1 ih2 => exact ih1.trans ih2

theorem edge_rel_nil (u v : ℕ) : ¬ edge_rel [] u v := by
  simp [edge_rel]

theorem eqvGen_extend (a b : ℕ) (es : List (ℕ × ℕ)) (x y : ℕ) :
    Relation.EqvGen (edge_rel ((a, b) :: es)) x y ↔
      Relation.EqvGen (edge_rel es) x y ∨
      (Relation.EqvGen (edge_rel es) x a ∧ Relation.EqvGen (edge_rel es) b y) ∨
      (Relation.EqvGen (edge_rel es) x b ∧ Relation.EqvGen (edge_rel es) a y) := by
  constructor
  · intro h
    induction h with
    | rel u v huv =>
      rcases huv with huv | hvu
      · rcases List.mem_cons.mp huv with heq | hmem
        · have h1 : u = a := congrArg Prod.fst heq
          have h2 : v = b := congrArg Prod.snd heq
          subst h1
          subst h2
          exact Or.inr (Or.inl ⟨Relation.EqvGen.refl u, Relation.EqvGen.refl v⟩)
        · exact Or.inl (Relation.EqvGen.rel u v (Or.inl hmem))
      · rcases List.mem_cons.mp hvu with heq | hmem
        · have h1 : v = a := congrArg Prod.fst heq
          have h2 : u = b := congrArg Prod.snd heq
          subst h1
          subst h2
          exact Or.inr (Or.inr ⟨Relation.EqvGen.refl u, Relation.EqvGen.refl v⟩)
        · exact Or.inl (Relation.EqvGen.rel u v (Or.inr hmem))
    | refl u => exact Or.inl (Relation.EqvGen.refl u)
    | symm u v _ ih =>
      rcases ih with h1 | ⟨h1, h2⟩ | ⟨h1, h2⟩
      · exact Or.inl (Relation.EqvGen.symm _ _ h1)
      · exact Or.inr (Or.inr ⟨Relation.EqvGen.symm _ _ h2, Relation.EqvGen.symm _ _ h1⟩)
      · exact Or.inr (Or.inl ⟨Relation.EqvGen.symm _ _ h2, Relation.EqvGen.symm _ _ h1⟩)
    | trans u v w _ _ ih1 ih2 =>
      rcases ih1 with h1 | ⟨h1a, h1b⟩ | ⟨h1a, h1b⟩ <;>
        rcases ih2 with h2 | ⟨h2a, h2b⟩ | ⟨h2a, h2b⟩
      · exact Or.inl (Relation.EqvGen.trans _ _ _ h1 h2)
      · exact Or.inr (Or.inl ⟨Relation.EqvGen.trans _ _ _ h1 h2a, h2b⟩)
      · exact Or.inr (Or.inr ⟨Relation.EqvGen.trans _ _ _ h1 h2a, h2b⟩)
      · exact Or.inr (Or.inl ⟨h1a, Relation.EqvGen.trans _ _ _ h1b h2⟩)
      · exact Or.inr (Or.inl ⟨h1a, h2b⟩)
      · exact Or.inl (Relation.EqvGen.trans _ _ _ h1a h2b)
      · exact Or.inr (Or.inr ⟨h1a, Relation.EqvGen.trans _ _ _ h1b h2⟩)
      · exact Or.inl (Relation.EqvGen.trans _ _ _ h1a h2b)
      · exact Or.inr (Or.inr ⟨h1a, h2b⟩)
  · intro h
    have hmono : ∀ p q : ℕ, edge_rel es p q → edge_rel ((a, b) :: es) p q := by
      intro p q hpq
      rcases hpq with h1 | h1
      · exact Or.inl (List.mem_cons_of_mem _ h1)
      · exact Or.inr (List.mem_cons_of_mem _ h1)
    have hab : Relation.EqvGen (edge_rel ((a, b) :: es)) a b :=
      Relation.EqvGen.rel _ _ (Or.inl (List.mem_cons_self _ _))
    rcases h with h1 | ⟨h1, h2⟩ | ⟨h1, h2⟩
    · exact Relation.EqvGen.mono hmono h1
    · exact Relation.EqvGen.trans _ _ _
        (Relation.EqvGen.trans _ _ _ (Relation.EqvGen.mono hmono h1) hab)
        (Relation.EqvGen.mono hmono h2)
    · exact Relation.EqvGen.trans _ _ _
        (Relation.EqvGen.trans _ _ _ (Relation.EqvGen.mono hmono h1)
          (Relation.EqvGen.symm _ _ hab))
        (Relation.EqvGen.mono hmono h2)

theorem labels_eq_iff (es : List (ℕ × ℕ)) (x y : ℕ) :
    labels es x = labels es y ↔ Relation.EqvGen (edge_rel es) x y := by
  induction es generalizing x y with
  | nil =>
    simp only [labels]
    constructor
    · intro h
      exact h ▸ Relation.EqvGen.refl x
    · intro h
      exact eqvGen_empty edge_rel_nil h
  | cons e es ih =>
    obtain ⟨a, b⟩ := e
    rw [eqvGen_extend]
    simp only [labels]
    by_cases hx : labels es x = labels es a <;> by_cases hy : labels es y = labels es a
    · simp only [if_pos hx, if_pos hy]
      exact iff_of_true (by trivial) (Or.inl ((ih x y).mp (hx.trans hy.symm)))
    · simp only [if_pos hx, if_neg hy]
      constructor
      · intro h
        exact Or.inr (Or.inl ⟨(ih x a).mp hx, (ih b y).mp h⟩)
      · rintro (h | ⟨h1, h2⟩ | ⟨h1, h2⟩)
        · exact absurd (((ih x y).mpr h).symm.trans hx) hy
        · exact (ih b y).mpr h2
        · exact absurd (((ih a y).mpr h2).symm) hy
    · simp only [if_neg hx, if_pos hy]
      constructor
      · intro h
        exact Or.inr (Or.inr ⟨(ih x b).mp h, (ih a y).mp hy.symm⟩)
      · rintro (h | ⟨h1, h2⟩ | ⟨h1, h2⟩)
        · exact absurd (((ih x y).mpr h).trans hy) hx
        · exact absurd ((ih x a).mpr h1) hx
        · exact (ih x b).mpr h1
    · simp only [if_neg hx, if_neg hy]
      constructor
      · intro h
        exact Or.inl ((ih x y).mp h)
      · rintro (h | ⟨h1, h2⟩ | ⟨h1, h2⟩)
        · exact (ih x y).mpr h
        · exact absurd ((ih x a).mpr h1) hx
        · exact absurd (((ih a y).mpr h2).symm) hy

theorem incident_iff (es : List (ℕ × ℕ)) (v : ℕ) :
    incident es v = true ↔ ∃ e ∈ es, e.1 = v ∨ e.2 = v := by
  simp [incident, List.any_eq_true]

/-- C8: the component partition produced by the labeling (with singleton
consolidation) is a pure function of the edge set: two edge lists holding the
same set of edges, in whatever order and multiplicity, put any two record ids
in the same component in exactly the same cases. -/
theorem c8_partition_invariant (es₁ es₂ : List (ℕ × ℕ))
    (h : ∀ e, e ∈ es₁ ↔ e ∈ es₂) (x y : ℕ) :
    (append_cp es₁ x = append_cp es₁ y ↔ append_cp es₂ x = append_cp es₂ y) := by
  have hrel : ∀ u v, edge_rel es₁ u v ↔ edge_rel es₂ u v := by
    intro u v
    rw [edge_rel, edge_rel, h, h]
  have hlab : ∀ u v, (labels es₁ u = labels es₁ v) ↔ (labels es₂ u = labels es₂ v) := by
    intro u v
    rw [labels_eq_iff, labels_eq_iff]
    exact ⟨Relation.EqvGen.mono (fun p q hpq => (hrel p q).mp hpq),
      Relation.EqvGen.mono (fun p q hpq => (hrel p q).mpr hpq)⟩
  have hinc : ∀ v, incident es₁ v = incident es₂ v := by
    intro v
    cases b1 : incident es₁ v <;> cases b2 : incident es₂ v
    · rfl
    · obtain ⟨e, he, hev⟩ := (incident_iff es₂ v).mp b2
      have hcontra : incident es₁ v = true := (incident_iff es₁ v).mpr ⟨e, (h e).mpr he, hev⟩
      simp [b1] at hcontra
    · obtain ⟨e, he, hev⟩ := (incident_iff es₁ v).mp b1
      have hcontra : incident es₂ v = true := (incident_iff es₂ v).mpr ⟨e, (h e).mp he, hev⟩
      simp [b2] at hcontra
    · rfl
  rw [append_cp, append_cp, append_cp, append_cp, hinc x, hinc y]
  by_cases hx : incident es₂ x = true <;> by_cases hy : incident es₂ y = true
  · simp only [if_pos hx, if_pos hy, add_left_inj]
    exact hlab x y
  · simp only [if_pos hx, if_neg hy]
    exact iff_of_false (Nat.succ_ne_zero _) (Nat.succ_ne_zero _)
  · simp only [if_neg hx, if_pos hy]
    exact iff_of_false (fun hc => Nat.succ_ne_zero _ hc.symm)
      (fun hc => Nat.succ_ne_zero _ hc.symm)
  · simp only [if_neg hx, if_neg hy]

/-- C8 witness: two orderings (with a duplicate) of the same two-edge set give
the same verdict on whether records 1 and 3 share a component. -/
theorem c8_partition_invariant_witness :
    (∀ e : ℕ × ℕ, e ∈ [(1, 2), (2, 3)] ↔ e ∈ [(2, 3), (1, 2), (1, 2)]) ∧
    (append_cp [(1, 2), (2, 3)] 1 = append_cp [(1, 2), (2, 3)] 3 ↔
      append_cp [(2, 3), (1, 2), (1, 2)] 1 = append_cp [(2, 3), (1, 2), (1, 2)] 3) := by
  have hmem : ∀ e : ℕ × ℕ, e ∈ [(1, 2), (2, 3)] ↔ e ∈ [(2, 3), (1, 2), (1, 2)] := by
    intro e
    simp only [List.mem_cons]
    tauto
  exact ⟨hmem, c8_partition_invariant _ _ hmem 1 3⟩

/-- C5 (counterexample): a family of M = 2 heatwaves cut with u = 3 requested
flat clusters does not terminate with an error: the step returns the labeling
that puts each heatwave in its own subfamily. -/
theorem c5_overcut_counterexample :
    2 < 3 ∧ subcluster [[1, 2], [3, 4]] 3 = Except.ok [0, 1] :=
  ⟨by omega, rfl⟩

/-- C5 (amended): when the requested flat cluster count u is at least the
family size M (and M is at least 2, so that the distance matrix is nonempty),
the sub-clustering step succeeds and returns M singleton subfamilies, one
distinct label per heatwave; an error occurs only for M below 2, where the
condensed distance matrix is empty. -/
theorem c5_overcut_returns_singletons (gIds : List (List ℕ)) (u : ℕ)
    (h2 : 2 ≤ gIds.length) (hu : gIds.length ≤ u) :
    subcluster gIds u = Except.ok (List.range gIds.length) := by
  simp only [subcluster]
  rw [if_neg (by omega), Nat.sub_eq_zero_of_le hu, List.take_zero]
  have hid : labels ([] : List (ℕ × ℕ)) = id := funext (fun v => rfl)
  rw [hid, List.map_id]

/-- C5 witness: the overcut behaviour on a concrete two-heatwave family. -/
theorem c5_overcut_witness :
    2 ≤ ([[1], [2, 3]] : List (List ℕ)).length ∧
    ([[1], [2, 3]] : List (List ℕ)).length ≤ 5 ∧
    subcluster [[1], [2, 3]] 5 = Except.ok (List.range ([[1], [2, 3]] : List (List ℕ)).length) :=
  ⟨by decide, by decide, c5_overcut_returns_singletons _ _ (by decide) (by decide)⟩

end HeatwaveAnalysis
